import Mathlib

/-!
Shallow embedding of the ssh-mcp server core (src/index.ts): command
sanitization, the SSH connection manager, the su elevation handshake and the
command execution engine, together with theorems checking the specification
against this embedding.  External collaborators (the ssh2 library, timers,
channels) are modelled as explicit events; every resolve/reject, write and
setTimeout the code performs is recorded in the state so that the theorems
can speak about them.
-/

namespace SshMcp

/-- Error codes of the McpError values the program constructs (external MCP
SDK library). -/
inductive ErrorCode
  | invalidParams
  | internalError
deriving DecidableEq

/-- An McpError value: an error code plus a human-readable message. -/
structure McpErr where
  code : ErrorCode
  message : String
deriving DecidableEq

/-- The single-quote character, written by code point to keep string literals
plain. -/
def squoteChar : Char := Char.ofNat 39

/-- The double-quote character. -/
def dquoteChar : Char := Char.ofNat 34

/-- The newline character. -/
def nlChar : Char := Char.ofNat 10

/-- Modelled builtin: JavaScript String.prototype.trim, dropping whitespace
from both ends of the string. -/
def jsTrim (s : String) : String :=
  String.mk (((s.data.dropWhile Char.isWhitespace).reverse.dropWhile Char.isWhitespace).reverse)

/-- Modelled builtin: JavaScript String.prototype.toLowerCase on the command
configuration strings involved here (ASCII case folding). -/
def lowerStr (s : String) : String :=
  String.mk (s.data.map Char.toLower)

/-- Fold a list of decimal digits into the number they denote. -/
def digitsVal (ds : List Char) : Nat :=
  ds.foldl (fun a c => a * 10 + (c.toNat - 48)) 0

/-- Modelled builtin: JavaScript parseInt in base 10, with none for NaN.
Leading whitespace is skipped, an optional sign is read, then the longest run
of leading decimal digits; if that run is empty the result is NaN. -/
def jsParseInt (s : String) : Option Int :=
  let cs := s.data.dropWhile Char.isWhitespace
  match cs with
  | [] => none
  | c :: t =>
    if c = '-' then
      let ds := t.takeWhile Char.isDigit
      if ds = [] then none else some (-(digitsVal ds : Int))
    else if c = '+' then
      let ds := t.takeWhile Char.isDigit
      if ds = [] then none else some ((digitsVal ds : Int))
    else
      let ds := cs.takeWhile Char.isDigit
      if ds = [] then none else some ((digitsVal ds : Int))

/-- The MAX_CHARS configuration value (src/index.ts lines 46-57) computed from
the optional raw --maxChars argument.  A result of `none` models the
JavaScript value Infinity, i.e. the length limit is disabled; absent argument
and unparsable strings give the default 1000; the sentinel string none
(case-insensitive) and non-positive numbers disable the limit. -/
def maxCharsOf (raw : Option String) : Option Nat :=
  match raw with
  | none => some 1000
  | some s =>
    if lowerStr s = "none" then none
    else
      match jsParseInt s with
      | none => some 1000
      | some p => if p ≤ 0 then none else some p.toNat

/-- sanitizeCommand (src/index.ts lines 74-93) with the configured MAX_CHARS
passed explicitly (`none` = Infinity, so the length check is skipped exactly
when the limit is finite per Number.isFinite).  The typeof-string guard of the
source is vacuous in this typed embedding. -/
def sanitizeCommand (maxChars : Option Nat) (command : String) : Except McpErr String :=
  if jsTrim command = "" then
    Except.error ⟨ErrorCode.invalidParams, "Command cannot be empty"⟩
  else
    match maxChars with
    | some m =>
      if m < (jsTrim command).length then
        Except.error ⟨ErrorCode.invalidParams,
          "Command is too long (max " ++ toString m ++ " characters)"⟩
      else
        Except.ok (jsTrim command)
    | none => Except.ok (jsTrim command)

/-- escapeCommandForShell (src/index.ts lines 103-106): replace every
single-quote character globally by the five-character sequence
quote double-quote quote double-quote quote. -/
def escapeCommandForShell (command : String) : String :=
  String.mk (List.flatten (command.data.map fun c =>
    if c = squoteChar then [squoteChar, dquoteChar, squoteChar, dquoteChar, squoteChar]
    else [c]))

/-- A one-character string holding a single quote. -/
def squote : String := String.mk [squoteChar]

/-- The best-effort abort command built by the timeout handler of
execSshCommandWithConnection (src/index.ts line 444). -/
def killCommand (command : String) : String :=
  "timeout 3s pkill -f " ++ squote ++ escapeCommandForShell command ++ squote
    ++ " 2>/dev/null || true"

/-- s contains sub as a contiguous substring (stated on character lists). -/
def ContainsStr (s sub : String) : Prop :=
  ∃ a b : List Char, s.data = a ++ sub.data ++ b

/-- Outcome with which the promise of execSshCommandWithConnection settles. -/
inductive ExecOutcome
  | resolved (text : String)
  | rejected (e : McpErr)
deriving DecidableEq

/-- Observable channel side effects of the execution engine: an exec on the
Transport Handle (with or without a pty), a write into the shared elevated
shell, a write to the fresh channel, and ending the channel. -/
inductive ExecAct
  | connExec (cmd : String) (pty : Bool)
  | shellWrite (s : String)
  | streamWrite (s : String)
  | streamEnd
deriving DecidableEq

/-- Configuration of one execSshCommandWithConnection run: whether the manager
holds an elevated su shell, the optional stdin payload, the command text and
the per-command timeout DEFAULT_TIMEOUT in milliseconds. -/
structure ExecCfg where
  shellPath : Bool
  stdin : Option String
  command : String
  timeoutMs : Nat
deriving DecidableEq

/-- State of one execSshCommandWithConnection run.  `settles` records every
resolve or reject the code performs, in order; `actions` every channel side
effect; `timersArmed` every setTimeout duration it arms. -/
structure ExecSt where
  isResolved : Bool
  stdout : String
  stderr : String
  settles : List ExecOutcome
  actions : List ExecAct
  timersArmed : List Nat
deriving DecidableEq

/-- Asynchronous events that can reach one execSshCommandWithConnection run:
the fresh-channel exec callback (with an error or with a stream), stream
stdout/stderr data, stream close with an exit code, expiry of the per-command
timer, and the abort helper channel closing. -/
inductive ExecEv
  | execCbErr (msg : String)
  | execCbOk
  | dataOut (s : String)
  | dataErr (s : String)
  | streamClose (code : Int)
  | timeoutFire
  | abortStreamClose
deriving DecidableEq

/-- True when a nonempty stdin payload was supplied (the truthiness test
stdin and stdin.length greater than zero of the source). -/
def stdinNonempty (cfg : ExecCfg) : Bool :=
  match cfg.stdin with
  | some s => s.length != 0
  | none => false

/-- Synchronous prefix of execSshCommandWithConnection (src/index.ts lines
428-506): arm the DEFAULT_TIMEOUT timer, then invoke execFn.  On the
elevated-shell path execFn writes the command plus newline into the shared
shell and its callback runs synchronously, attaching the data handlers and
then ending the channel (the stdin write is guarded by not-shell, so only the
end call happens).  On the fresh path it calls conn.exec on the Transport
Handle, requesting a pty exactly when a nonempty stdin payload is given, and
its callback arrives later as an event. -/
def execInit (cfg : ExecCfg) : ExecSt :=
  if cfg.shellPath then
    { isResolved := false, stdout := "", stderr := "", settles := [],
      actions := [ExecAct.shellWrite (cfg.command ++ "\n"), ExecAct.streamEnd],
      timersArmed := [cfg.timeoutMs] }
  else
    { isResolved := false, stdout := "", stderr := "", settles := [],
      actions := [ExecAct.connExec cfg.command (stdinNonempty cfg)],
      timersArmed := [cfg.timeoutMs] }

/-- One asynchronous event of an execSshCommandWithConnection run
(src/index.ts lines 436-524), translated branch by branch: the exec-error
callback rejects unless already settled; the exec-success callback writes the
stdin payload (fresh channel only) and ends the channel; data events append
to the captured stdout/stderr; stream close classifies by captured stderr
unless already settled; timer expiry issues the best-effort kill exec on the
Transport Handle, arms the 5000 ms abort timer and rejects with the timeout
message, unless already settled; the abort channel closing only clears that
abort timer. -/
def execStep (cfg : ExecCfg) (st : ExecSt) (e : ExecEv) : ExecSt :=
  match e with
  | ExecEv.execCbErr msg =>
    if st.isResolved then st
    else
      { st with isResolved := true,
                settles := st.settles ++ [ExecOutcome.rejected
                  ⟨ErrorCode.internalError, "SSH exec error: " ++ msg⟩] }
  | ExecEv.execCbOk =>
    if stdinNonempty cfg && !cfg.shellPath then
      { st with actions := st.actions ++ [ExecAct.streamWrite (cfg.stdin.getD ""), ExecAct.streamEnd] }
    else
      { st with actions := st.actions ++ [ExecAct.streamEnd] }
  | ExecEv.dataOut s => { st with stdout := st.stdout ++ s }
  | ExecEv.dataErr s => { st with stderr := st.stderr ++ s }
  | ExecEv.streamClose code =>
    if st.isResolved then st
    else if st.stderr = "" then
      { st with isResolved := true,
                settles := st.settles ++ [ExecOutcome.resolved st.stdout] }
    else
      { st with isResolved := true,
                settles := st.settles ++ [ExecOutcome.rejected
                  ⟨ErrorCode.internalError,
                   "Error (code " ++ toString code ++ "):\n" ++ st.stderr⟩] }
  | ExecEv.timeoutFire =>
    if st.isResolved then st
    else
      { st with isResolved := true,
                timersArmed := st.timersArmed ++ [5000],
                actions := st.actions ++ [ExecAct.connExec (killCommand cfg.command) false],
                settles := st.settles ++ [ExecOutcome.rejected
                  ⟨ErrorCode.internalError,
                   "Command execution timed out after " ++ toString cfg.timeoutMs ++ "ms"⟩] }
  | ExecEv.abortStreamClose => st

/-- A whole run: the synchronous prefix followed by a sequence of events. -/
def execRun (cfg : ExecCfg) (evs : List ExecEv) : ExecSt :=
  evs.foldl (execStep cfg) (execInit cfg)

/-- Events that neither settle the promise nor fire the per-command timer:
stream data, the successful exec callback and the abort channel closing. -/
def benignEv : ExecEv → Bool
  | ExecEv.dataOut _ => true
  | ExecEv.dataErr _ => true
  | ExecEv.execCbOk => true
  | ExecEv.abortStreamClose => true
  | _ => false

/-- The standard-output text accumulated by a list of events. -/
def outAcc : List ExecEv → String
  | [] => ""
  | ExecEv.dataOut s :: rest => s ++ outAcc rest
  | _ :: rest => outAcc rest

/-- The standard-error text accumulated by a list of events. -/
def errAcc : List ExecEv → String
  | [] => ""
  | ExecEv.dataErr s :: rest => s ++ errAcc rest
  | _ :: rest => errAcc rest

/-- Test of the password-prompt regex of ensureElevated (src/index.ts line
236): the word password, case-insensitively, followed only by colon or space
characters up to the end of the buffer.  Equivalently, after discarding the
maximal trailing run of colons and spaces the buffer ends in password. -/
def passwordPromptTest (b : String) : Bool :=
  let stripped := (b.data.reverse.dropWhile fun c => c = ':' || c = ' ').reverse
  "password".data.isSuffixOf (stripped.map Char.toLower)

/-- Boolean infix test on character lists: the needle occurs contiguously
somewhere in the haystack. -/
def listInfix (needle : List Char) : List Char → Bool
  | [] => needle.isEmpty
  | c :: rest => needle.isPrefixOf (c :: rest) || listInfix needle rest

/-- Test of the success pattern of ensureElevated (src/index.ts line 244):
either the buffer ends in hash-space with a newline somewhere before it (the
regex newline, any non-newlines, hash, space, end), or it contains root
followed by an at sign or a colon, case-insensitively. -/
def rootPromptTest (b : String) : Bool :=
  (b.data.reverse.take 2 = [' ', '#'] && b.data.contains nlChar)
    || listInfix "root@".data (b.data.map Char.toLower)
    || listInfix "root:".data (b.data.map Char.toLower)

/-- Whether the word failed occurs before the next newline. -/
def lineHasFailed (cs : List Char) : Bool :=
  listInfix "failed".data (cs.takeWhile fun c => c ≠ nlChar)

/-- Test of the regex su-colon-space dot-star failed on an already lowercased
buffer: the text su-colon-space followed, with no newline in between (dot
does not match newlines), by failed. -/
def suColonFailedTest : List Char → Bool
  | [] => false
  | c :: rest =>
    ("su: ".data.isPrefixOf (c :: rest) && lineHasFailed ((c :: rest).drop 4))
      || suColonFailedTest rest

/-- Test of the failure pattern of ensureElevated (src/index.ts line 255),
case-insensitive: authentication failure, incorrect password, or the
su-colon pattern. -/
def authFailTest (b : String) : Bool :=
  let lb := b.data.map Char.toLower
  listInfix "authentication failure".data lb
    || listInfix "incorrect password".data lb
    || suColonFailedTest lb

/-- Outcome of one ensureElevated attempt. -/
inductive ElevOutcome
  | resolvedOk
  | rejected (msg : String)
deriving DecidableEq

/-- State of one ensureElevated attempt: the rolling buffer, the list of
stream.write calls made (in order), the promise outcome, whether cleanup
removed the data listener, and the manager flags set on success.
`timersArmed` records every setTimeout the attempt arms. -/
structure ElevSt where
  buffer : String
  writes : List String
  outcome : Option ElevOutcome
  dataRemoved : Bool
  isElevated : Bool
  suShellSet : Bool
  timersArmed : List Nat
deriving DecidableEq

/-- Asynchronous events of one ensureElevated attempt: the conn.shell
callback with an error or with the channel, a data chunk, and channel close. -/
inductive ElevEv
  | shellCbErr (msg : String)
  | shellCbOk
  | dataEv (chunk : String)
  | closeEv
deriving DecidableEq

/-- Settle the attempt promise; a second resolve or reject is a no-op. -/
def elevSettle (o : ElevOutcome) (st : ElevSt) : ElevSt :=
  match st.outcome with
  | some _ => st
  | none => { st with outcome := some o }

/-- The onData handler of ensureElevated (src/index.ts lines 232-261): append
the chunk to the buffer, then test the password prompt, the success pattern
and the failure pattern, in that order, each branch returning early.  The
password branch writes the secret plus a newline and clears the buffer; the
success branch removes the listener, retains the channel, sets the elevated
flag and resolves; the failure branch removes the listener and rejects with
the buffer as diagnostic. -/
def elevOnData (pw : String) (st : ElevSt) (chunk : String) : ElevSt :=
  if passwordPromptTest (st.buffer ++ chunk) then
    { st with buffer := "", writes := st.writes ++ [pw ++ "\n"] }
  else if rootPromptTest (st.buffer ++ chunk) then
    { elevSettle ElevOutcome.resolvedOk { st with buffer := st.buffer ++ chunk } with
        dataRemoved := true, suShellSet := true, isElevated := true }
  else if authFailTest (st.buffer ++ chunk) then
    { elevSettle (ElevOutcome.rejected ("su authentication failed: " ++ (st.buffer ++ chunk)))
        { st with buffer := st.buffer ++ chunk } with
        dataRemoved := true }
  else
    { st with buffer := st.buffer ++ chunk }

/-- One event of an ensureElevated attempt (src/index.ts lines 216-275).  The
shell callback error rejects; the successful shell callback writes the su
invocation into the channel; data is dispatched to onData while the listener
is attached; close rejects when the elevated flag is not yet set.  The
attempt arms no timer anywhere: the source of ensureElevated contains no
setTimeout call. -/
def elevStep (pw : String) (st : ElevSt) (e : ElevEv) : ElevSt :=
  match e with
  | ElevEv.shellCbErr msg =>
    elevSettle (ElevOutcome.rejected ("Failed to start interactive shell for su: " ++ msg)) st
  | ElevEv.shellCbOk => { st with writes := st.writes ++ ["su -\n"] }
  | ElevEv.dataEv chunk => if st.dataRemoved then st else elevOnData pw st chunk
  | ElevEv.closeEv =>
    if st.isElevated then st
    else elevSettle (ElevOutcome.rejected "su shell closed before elevation completed") st

/-- Initial state of an ensureElevated attempt: the promise executor calls
conn.shell and arms no timer. -/
def elevInit : ElevSt :=
  { buffer := "", writes := [], outcome := none, dataRemoved := false,
    isElevated := false, suShellSet := false, timersArmed := [] }

/-- A whole ensureElevated attempt run over an event sequence. -/
def elevRun (pw : String) (evs : List ElevEv) : ElevSt :=
  evs.foldl (elevStep pw) elevInit

/-- State of one SSHConnectionManager (src/index.ts lines 119-130).  Clients
and connection promises are identified by the attempt number; `attempts`
counts the Client constructions performed so far; `outcomes` records, per
promise, the first resolve (true) or reject (false); `live` is the external
set of clients whose socket is open.  Modelled from the spec for the external
ssh2 Client: its socket is open from the ready notification until it is ended
or the end/close/error notifications fire.  `suPromiseActive` models whether
the suPromise field holds an in-flight elevation promise. -/
structure MState where
  conn : Option Nat
  isConnecting : Bool
  connectionPromise : Option Nat
  suShell : Option Nat
  suPromiseActive : Bool
  isElevated : Bool
  attempts : Nat
  outcomes : List (Nat × Bool)
  live : List Nat
  suPassword : Option String
deriving DecidableEq

/-- First settlement of a promise wins; later settlements are no-ops. -/
def settleProm (p : Nat) (v : Bool) (xs : List (Nat × Bool)) : List (Nat × Bool) :=
  match xs.lookup p with
  | some _ => xs
  | none => (p, v) :: xs

/-- isConnected (src/index.ts lines 202-204): a Transport Handle exists and
its underlying socket is open (not destroyed). -/
def isConnected (s : MState) : Bool :=
  match s.conn with
  | some c => decide (c ∈ s.live)
  | none => false

/-- What a connect or ensureConnected call hands back to its caller: an
immediately resolved outcome (already connected) or the shared pending
connection promise. -/
inductive ConnectRet
  | immediate
  | pending (p : Nat)
deriving DecidableEq

/-- The synchronous body of connect() (src/index.ts lines 132-199): return at
once when already connected; return the in-flight promise when the connecting
flag is set and a promise exists; otherwise set the connecting flag,
construct a new Client (its id is the number of clients built so far),
install the shared promise, arm the 30 s connection timer, attach the
handlers and start the transport connect, returning the new promise. -/
def connect (s : MState) : ConnectRet × MState :=
  if isConnected s then (ConnectRet.immediate, s)
  else
    match s.isConnecting, s.connectionPromise with
    | true, some p => (ConnectRet.pending p, s)
    | _, _ =>
      (ConnectRet.pending s.attempts,
        { s with conn := some s.attempts, isConnecting := true,
                 connectionPromise := some s.attempts,
                 attempts := s.attempts + 1 })

/-- ensureConnected (src/index.ts lines 280-284): call connect() iff not
currently connected. -/
def ensureConnected (s : MState) : ConnectRet × MState :=
  if isConnected s then (ConnectRet.immediate, s) else connect s

/-- The ready handler of attempt c (src/index.ts lines 153-172): clear the
30 s timer and the connecting flag; the socket of c becomes open; when an su
password is configured, start background elevation by the synchronous prefix
of ensureElevated (lines 210-216: no-op when already elevated with a shell or
when an elevation promise is already in flight, otherwise install a fresh
elevation promise), without awaiting it; finally resolve this attempt's
connection promise. -/
def readyStep (c : Nat) (s : MState) : MState :=
  { s with isConnecting := false,
           live := if c ∈ s.live then s.live else c :: s.live,
           suPromiseActive :=
             if s.suPassword.isSome && !(s.isElevated && s.suShell.isSome)
                 && !s.suPromiseActive
             then true else s.suPromiseActive,
           outcomes := settleProm c true s.outcomes }

/-- getConnection (src/index.ts lines 286-291): the live Transport Handle, or
an internal error stating the connection is not established. -/
def getConnection (s : MState) : Except McpErr Nat :=
  match s.conn with
  | some c => Except.ok c
  | none => Except.error ⟨ErrorCode.internalError, "SSH connection not established"⟩

/-- The end calls close() performs, in order. -/
inductive CloseAct
  | endShell
  | endConn
deriving DecidableEq

/-- close() (src/index.ts lines 293-303): when a Transport Handle exists,
first end the elevated shell if one exists and clear the elevation state,
then end the Transport Handle and clear it; with no handle, do nothing. -/
def close (s : MState) : List CloseAct × MState :=
  match s.conn with
  | none => ([], s)
  | some c =>
    match s.suShell with
    | some _ =>
      ([CloseAct.endShell, CloseAct.endConn],
        { s with suShell := none, isElevated := false,
                 conn := none, live := s.live.erase c })
    | none =>
      ([CloseAct.endConn], { s with conn := none, live := s.live.erase c })

/-- Events of the manager: the two caller entry points, the transport
notifications of attempt c, expiry of the 30 s connection timer, the terminal
outcomes of an in-flight elevation attempt as the manager sees them, and a
close() call. -/
inductive MEv
  | connectEv
  | ensureConnectedEv
  | readyEv (c : Nat)
  | errorEv (c : Nat)
  | endEv (c : Nat)
  | closeNotifEv (c : Nat)
  | connTimeoutEv (c : Nat)
  | elevOkEv (sh : Nat)
  | elevFailEv
  | closeCallEv
deriving DecidableEq

/-- One manager step; none when the event cannot fire (no such handler or
timer, or no elevation attempt in flight).  The transport error, end and
close handlers (src/index.ts lines 174-194) null the Transport Handle, clear
the connecting flag and drop the shared promise — and nothing else; only the
error handler also rejects the promise.  The connection timer (lines 145-151)
ends the current handle, clears the same fields and rejects.  elevOkEv is the
success branch of the elevation handshake as seen by the manager (lines
246-250); elevFailEv covers its failure branches (lines 221-224, 255-259,
265-270), whose error the ready handler swallows (lines 162-168). -/
def stepM : MEv → MState → Option MState
  | MEv.connectEv, s => some (connect s).2
  | MEv.ensureConnectedEv, s => some (ensureConnected s).2
  | MEv.readyEv c, s => if s.conn = some c then some (readyStep c s) else none
  | MEv.errorEv c, s =>
    if c < s.attempts then
      some { s with conn := none, isConnecting := false,
                    connectionPromise := none,
                    outcomes := settleProm c false s.outcomes,
                    live := s.live.erase c }
    else none
  | MEv.endEv c, s =>
    if c < s.attempts then
      some { s with conn := none, isConnecting := false,
                    connectionPromise := none, live := s.live.erase c }
    else none
  | MEv.closeNotifEv c, s =>
    if c < s.attempts then
      some { s with conn := none, isConnecting := false,
                    connectionPromise := none, live := s.live.erase c }
    else none
  | MEv.connTimeoutEv c, s =>
    if c < s.attempts then
      some { s with conn := none, isConnecting := false,
                    connectionPromise := none,
                    outcomes := settleProm c false s.outcomes,
                    live := match s.conn with
                            | some c0 => s.live.erase c0
                            | none => s.live }
    else none
  | MEv.elevOkEv sh, s =>
    if s.suPromiseActive then
      some { s with suShell := some sh, isElevated := true, suPromiseActive := false }
    else none
  | MEv.elevFailEv, s =>
    if s.suPromiseActive then some { s with suPromiseActive := false } else none
  | MEv.closeCallEv, s => some (close s).2

/-- A freshly constructed SSHConnectionManager (src/index.ts lines 119-130). -/
def initM (suPw : Option String) : MState :=
  { conn := none, isConnecting := false, connectionPromise := none,
    suShell := none, suPromiseActive := false, isElevated := false,
    attempts := 0, outcomes := [], live := [], suPassword := suPw }

/-- The manager states reachable from a fresh manager by any event sequence. -/
inductive Reachable (suPw : Option String) : MState → Prop
  | init : Reachable suPw (initM suPw)
  | step {s s' : MState} (e : MEv) : Reachable suPw s → stepM e s = some s' →
      Reachable suPw s'

/-- A caller entry point. -/
inductive MCall
  | connectC
  | ensureConnectedC
deriving DecidableEq

/-- Dispatch one caller invocation. -/
def callOne (s : MState) (c : MCall) : ConnectRet × MState :=
  match c with
  | MCall.connectC => connect s
  | MCall.ensureConnectedC => ensureConnected s

/-- Run a sequence of caller invocations, collecting the returned values. -/
def callRun (s : MState) : List MCall → List ConnectRet × MState
  | [] => ([], s)
  | c :: cs =>
    ((callOne s c).1 :: (callRun (callOne s c).2 cs).1, (callRun (callOne s c).2 cs).2)

/-- Auxiliary invariant of reachable manager states: open sockets and the
current handle belong to already-constructed clients, and while the
connecting flag is set the pending attempt's socket is not yet open (it opens
only at the ready notification, which clears the flag). -/
def MInv (s : MState) : Prop :=
  (∀ c ∈ s.live, c < s.attempts) ∧
  (∀ c, s.conn = some c → c < s.attempts) ∧
  (s.isConnecting = true → ∀ c, s.conn = some c → c ∉ s.live)

/-! Lemmas and theorems. -/

/-- The fields of the execution engine shared by both execInit branches. -/
theorem execInit_fields (cfg : ExecCfg) :
    (execInit cfg).isResolved = false ∧ (execInit cfg).stdout = "" ∧
    (execInit cfg).stderr = "" ∧ (execInit cfg).settles = [] := by
  unfold execInit
  split <;> exact ⟨rfl, rfl, rfl, rfl⟩

/-- The exec-success callback changes only the recorded actions. -/
theorem execCbOk_fields (cfg : ExecCfg) (st : ExecSt) :
    (execStep cfg st ExecEv.execCbOk).isResolved = st.isResolved ∧
    (execStep cfg st ExecEv.execCbOk).stdout = st.stdout ∧
    (execStep cfg st ExecEv.execCbOk).stderr = st.stderr ∧
    (execStep cfg st ExecEv.execCbOk).settles = st.settles := by
  simp only [execStep]
  split <;> exact ⟨rfl, rfl, rfl, rfl⟩

/-- Over benign events an unsettled run stays unsettled and just accumulates
the stdout and stderr data. -/
theorem foldl_benign (cfg : ExecCfg) (evs : List ExecEv) :
    ∀ st : ExecSt, (∀ e ∈ evs, benignEv e = true) → st.isResolved = false →
      (evs.foldl (execStep cfg) st).isResolved = false ∧
      (evs.foldl (execStep cfg) st).stdout = st.stdout ++ outAcc evs ∧
      (evs.foldl (execStep cfg) st).stderr = st.stderr ++ errAcc evs ∧
      (evs.foldl (execStep cfg) st).settles = st.settles := by
  induction evs with
  | nil =>
    intro st _ hres
    exact ⟨hres, (String.append_empty _).symm, (String.append_empty _).symm, rfl⟩
  | cons e rest ih =>
    intro st hb hres
    have hbe : benignEv e = true := hb e (List.mem_cons_self _ _)
    have hbr : ∀ x ∈ rest, benignEv x = true := fun x hx => hb x (List.mem_cons_of_mem _ hx)
    rw [List.foldl_cons]
    cases e with
    | execCbErr msg => simp [benignEv] at hbe
    | streamClose code => simp [benignEv] at hbe
    | timeoutFire => simp [benignEv] at hbe
    | dataOut s =>
      have h := ih { st with stdout := st.stdout ++ s } hbr hres
      refine ⟨h.1, ?_, ?_, h.2.2.2⟩
      · rw [show execStep cfg st (ExecEv.dataOut s) = { st with stdout := st.stdout ++ s } from rfl]
        rw [h.2.1]
        simp [outAcc, String.append_assoc]
      · rw [show execStep cfg st (ExecEv.dataOut s) = { st with stdout := st.stdout ++ s } from rfl]
        rw [h.2.2.1]
        simp [errAcc]
    | dataErr s =>
      have h := ih { st with stderr := st.stderr ++ s } hbr hres
      refine ⟨h.1, ?_, ?_, h.2.2.2⟩
      · rw [show execStep cfg st (ExecEv.dataErr s) = { st with stderr := st.stderr ++ s } from rfl]
        rw [h.2.1]
        simp [outAcc]
      · rw [show execStep cfg st (ExecEv.dataErr s) = { st with stderr := st.stderr ++ s } from rfl]
        rw [h.2.2.1]
        simp [errAcc, String.append_assoc]
    | execCbOk =>
      obtain ⟨f1, f2, f3, f4⟩ := execCbOk_fields cfg st
      have h := ih (execStep cfg st ExecEv.execCbOk) hbr (by rw [f1]; exact hres)
      refine ⟨h.1, ?_, ?_, by rw [h.2.2.2, f4]⟩
      · rw [h.2.1, f2]
        simp [outAcc]
      · rw [h.2.2.1, f3]
        simp [errAcc]
    | abortStreamClose =>
      have h := ih st hbr hres
      refine ⟨h.1, ?_, ?_, h.2.2.2⟩
      · rw [show execStep cfg st ExecEv.abortStreamClose = st from rfl, h.2.1]
        simp [outAcc]
      · rw [show execStep cfg st ExecEv.abortStreamClose = st from rfl, h.2.2.1]
        simp [errAcc]

/-- C10: a command whose trimmed length equals the configured finite maximum
passes sanitizeCommand and yields the trimmed command; one whose trimmed
length exceeds the maximum fails with an invalid-parameters error whose
message names the limit; with the limit disabled no length check is applied;
the default limit is 1000 and the sentinels (the string none, non-positive
numbers) disable the limit. -/
theorem C10_sanitize_length (m : Nat) (cmd : String) :
    maxCharsOf none = some 1000 ∧
    maxCharsOf (some "none") = none ∧
    maxCharsOf (some "0") = none ∧
    (0 < m → (jsTrim cmd).length = m →
      sanitizeCommand (some m) cmd = Except.ok (jsTrim cmd)) ∧
    (m < (jsTrim cmd).length →
      sanitizeCommand (some m) cmd =
        Except.error ⟨ErrorCode.invalidParams,
          "Command is too long (max " ++ toString m ++ " characters)"⟩ ∧
      ContainsStr ("Command is too long (max " ++ toString m ++ " characters)")
        (toString m)) ∧
    (jsTrim cmd ≠ "" → sanitizeCommand none cmd = Except.ok (jsTrim cmd)) := by
  refine ⟨by decide, by decide, by decide, ?_, ?_, ?_⟩
  · intro hm hlen
    have hne : jsTrim cmd ≠ "" := by
      intro h0
      rw [h0] at hlen
      simp at hlen
      omega
    unfold sanitizeCommand
    rw [if_neg hne]
    have hnlt : ¬ m < (jsTrim cmd).length := by omega
    simp [hnlt]
  · intro hlt
    have hne : jsTrim cmd ≠ "" := by
      intro h0
      rw [h0] at hlt
      simp at hlt
    constructor
    · unfold sanitizeCommand
      rw [if_neg hne]
      simp [hlt]
    · exact ⟨"Command is too long (max ".data, " characters)".data, by
        simp [String.data_append, List.append_assoc]⟩
  · intro hne
    unfold sanitizeCommand
    rw [if_neg hne]

/-- C10 witness: with the default-shaped limit 5 the five-character command
passes; with limit 4 it fails with the message naming the limit. -/
theorem C10_sanitize_length_witness :
    (0 < 5 ∧ (jsTrim "12345").length = 5 ∧ 4 < (jsTrim "12345").length) ∧
    sanitizeCommand (some 5) "12345" = Except.ok (jsTrim "12345") ∧
    sanitizeCommand (some 4) "12345" =
      Except.error ⟨ErrorCode.invalidParams,
        "Command is too long (max " ++ toString 4 ++ " characters)"⟩ :=
  ⟨by decide,
   (C10_sanitize_length 5 "12345").2.2.2.1 (by decide) (by decide),
   ((C10_sanitize_length 4 "12345").2.2.2.2.1 (by decide)).1⟩

/-- One execution-engine event preserves the settle-once bookkeeping. -/
theorem execStep_settle_inv (cfg : ExecCfg) (st : ExecSt) (e : ExecEv)
    (h1 : st.isResolved = false → st.settles = []) (h2 : st.settles.length ≤ 1) :
    ((execStep cfg st e).isResolved = false → (execStep cfg st e).settles = []) ∧
    (execStep cfg st e).settles.length ≤ 1 := by
  cases e with
  | execCbErr msg =>
    simp only [execStep]
    split
    · exact ⟨h1, h2⟩
    · next hres =>
      have hf : st.isResolved = false := by simpa using hres
      have hz := h1 hf
      exact ⟨by intro hc; simp at hc, by simp [hz]⟩
  | execCbOk =>
    simp only [execStep]
    split <;> exact ⟨h1, h2⟩
  | dataOut s => exact ⟨h1, h2⟩
  | dataErr s => exact ⟨h1, h2⟩
  | streamClose code =>
    simp only [execStep]
    split
    · exact ⟨h1, h2⟩
    · next hres =>
      have hf : st.isResolved = false := by simpa using hres
      have hz := h1 hf
      split
      · exact ⟨by intro hc; simp at hc, by simp [hz]⟩
      · exact ⟨by intro hc; simp at hc, by simp [hz]⟩
  | timeoutFire =>
    simp only [execStep]
    split
    · exact ⟨h1, h2⟩
    · next hres =>
      have hf : st.isResolved = false := by simpa using hres
      have hz := h1 hf
      exact ⟨by intro hc; simp at hc, by simp [hz]⟩
  | abortStreamClose => exact ⟨h1, h2⟩

/-- C6: every execution path of execSshCommandWithConnection resolves or
rejects at most once — over every possible event sequence (any interleaving
of callbacks, data, close and timer expiry, on either channel strategy) at
most one settlement is ever recorded, so once a result or the timeout has
fired the other is a no-op. -/
theorem C6_settle_at_most_once (cfg : ExecCfg) (evs : List ExecEv) :
    (execRun cfg evs).settles.length ≤ 1 := by
  suffices h : ∀ st : ExecSt, (st.isResolved = false → st.settles = []) →
      st.settles.length ≤ 1 →
      ((evs.foldl (execStep cfg) st).isResolved = false →
        (evs.foldl (execStep cfg) st).settles = []) ∧
      (evs.foldl (execStep cfg) st).settles.length ≤ 1 by
    exact (h (execInit cfg) (fun _ => (execInit_fields cfg).2.2.2)
      (by rw [(execInit_fields cfg).2.2.2]; simp)).2
  induction evs with
  | nil => intro st ha hb; exact ⟨ha, hb⟩
  | cons e rest ih =>
    intro st ha hb
    rw [List.foldl_cons]
    obtain ⟨ha', hb'⟩ := execStep_settle_inv cfg st e ha hb
    exact ih (execStep cfg st e) ha' hb'

/-- C3: on a fresh exec channel, when the stream closes before the timeout
(only benign events occurred before the close), the run settles exactly once:
with a failure carrying the exit code and the captured standard-error text
when any standard-error bytes were captured, and with a success whose text is
exactly the accumulated standard-output otherwise. -/
theorem C3_close_classification (cfg : ExecCfg) (evs : List ExecEv) (code : Int)
    (_hfresh : cfg.shellPath = false) (hb : ∀ e ∈ evs, benignEv e = true) :
    (errAcc evs = "" →
      (execRun cfg (evs ++ [ExecEv.streamClose code])).settles =
        [ExecOutcome.resolved (outAcc evs)]) ∧
    (errAcc evs ≠ "" →
      (execRun cfg (evs ++ [ExecEv.streamClose code])).settles =
        [ExecOutcome.rejected ⟨ErrorCode.internalError,
          "Error (code " ++ toString code ++ "):\n" ++ errAcc evs⟩] ∧
      ContainsStr ("Error (code " ++ toString code ++ "):\n" ++ errAcc evs)
        (errAcc evs) ∧
      ContainsStr ("Error (code " ++ toString code ++ "):\n" ++ errAcc evs)
        (toString code)) := by
  obtain ⟨i1, i2, i3, i4⟩ := execInit_fields cfg
  obtain ⟨m1, m2, m3, m4⟩ := foldl_benign cfg evs (execInit cfg) hb i1
  have hOUT : (evs.foldl (execStep cfg) (execInit cfg)).stdout = outAcc evs := by
    rw [m2, i2, String.empty_append]
  have hERR : (evs.foldl (execStep cfg) (execInit cfg)).stderr = errAcc evs := by
    rw [m3, i3, String.empty_append]
  have hSET : (evs.foldl (execStep cfg) (execInit cfg)).settles = [] := by
    rw [m4, i4]
  have hset : execRun cfg (evs ++ [ExecEv.streamClose code]) =
      execStep cfg (evs.foldl (execStep cfg) (execInit cfg)) (ExecEv.streamClose code) := by
    unfold execRun
    rw [List.foldl_append]
    rfl
  constructor
  · intro hz
    rw [hset]
    simp only [execStep]
    rw [if_neg (by rw [m1]; simp)]
    rw [if_pos (by rw [hERR]; exact hz)]
    rw [hSET, hOUT]
    rfl
  · intro hnz
    refine ⟨?_, ?_, ?_⟩
    · rw [hset]
      simp only [execStep]
      rw [if_neg (by rw [m1]; simp)]
      rw [if_neg (by rw [hERR]; exact hnz)]
      rw [hSET, hERR]
      rfl
    · exact ⟨("Error (code " ++ toString code ++ "):\n").data, [], by
        simp [String.data_append, List.append_assoc]⟩
    · exact ⟨"Error (code ".data, ("):\n" ++ errAcc evs).data, by
        simp [String.data_append, List.append_assoc]⟩

/-- C3 witness: a run that captures standard-error text and closes with exit
code 2 rejects with a message carrying both, and a clean run resolves with
its standard-output. -/
theorem C3_close_classification_witness :
    ((⟨false, none, "ls", 60000⟩ : ExecCfg).shellPath = false ∧
      errAcc [ExecEv.execCbOk, ExecEv.dataErr "boom"] ≠ "" ∧
      errAcc [ExecEv.execCbOk, ExecEv.dataOut "hi"] = "") ∧
    (execRun ⟨false, none, "ls", 60000⟩
        ([ExecEv.execCbOk, ExecEv.dataErr "boom"] ++ [ExecEv.streamClose 2])).settles =
      [ExecOutcome.rejected ⟨ErrorCode.internalError,
        "Error (code " ++ toString (2 : Int) ++ "):\n" ++
          errAcc [ExecEv.execCbOk, ExecEv.dataErr "boom"]⟩] ∧
    (execRun ⟨false, none, "ls", 60000⟩
        ([ExecEv.execCbOk, ExecEv.dataOut "hi"] ++ [ExecEv.streamClose 0])).settles =
      [ExecOutcome.resolved (outAcc [ExecEv.execCbOk, ExecEv.dataOut "hi"])] :=
  ⟨by refine ⟨rfl, by decide, by decide⟩,
   ((C3_close_classification ⟨false, none, "ls", 60000⟩
      [ExecEv.execCbOk, ExecEv.dataErr "boom"] 2 rfl (by decide)).2 (by decide)).1,
   (C3_close_classification ⟨false, none, "ls", 60000⟩
      [ExecEv.execCbOk, ExecEv.dataOut "hi"] 0 rfl (by decide)).1 (by decide)⟩

/-- C4 counterexample: even when the command ran on the shared elevated shell
(shellPath true), the timeout handler still issues the best-effort kill
command — an exec on the Transport Handle whose text pattern-matches the
original command — while reporting the timeout; the claim that nothing is
attempted to be killed on the shared-shell path is therefore false of the
code, which runs the identical timeout handler on both paths. -/
theorem C4_timeout_kill_cex :
    ExecAct.connExec (killCommand "sleep 999") false ∈
      (execRun ⟨true, none, "sleep 999", 60000⟩ [ExecEv.timeoutFire]).actions ∧
    (execRun ⟨true, none, "sleep 999", 60000⟩ [ExecEv.timeoutFire]).settles =
      [ExecOutcome.rejected ⟨ErrorCode.internalError,
        "Command execution timed out after 60000ms"⟩] := by
  decide

/-- C4 amended: on per-command timeout expiry, whichever channel strategy the
command used, the handler issues the same best-effort kill exec on the
Transport Handle (never a write into the shared shell) and reports the
timeout failure in the same step, so the report does not depend on the abort
attempt's outcome (the abort channel closing changes nothing). -/
theorem C4_timeout_amended (cfg : ExecCfg) (st : ExecSt) (h : st.isResolved = false) :
    (execStep cfg st ExecEv.timeoutFire).actions =
      st.actions ++ [ExecAct.connExec (killCommand cfg.command) false] ∧
    (execStep cfg st ExecEv.timeoutFire).settles =
      st.settles ++ [ExecOutcome.rejected ⟨ErrorCode.internalError,
        "Command execution timed out after " ++ toString cfg.timeoutMs ++ "ms"⟩] ∧
    (∀ x, ExecAct.shellWrite x ∈ (execStep cfg st ExecEv.timeoutFire).actions →
        ExecAct.shellWrite x ∈ st.actions) ∧
    (∀ t : ExecSt, execStep cfg t ExecEv.abortStreamClose = t) := by
  refine ⟨by simp [execStep, h], by simp [execStep, h], ?_, fun t => rfl⟩
  intro x hx
  simp [execStep, h] at hx
  exact hx

/-- C4 amended witness: the timeout handler of a shared-shell run, fired on
the fresh initial state, appends exactly the kill exec and the timeout
rejection. -/
theorem C4_timeout_amended_witness :
    (execInit ⟨true, none, "sleep 999", 60000⟩).isResolved = false ∧
    (execStep ⟨true, none, "sleep 999", 60000⟩
        (execInit ⟨true, none, "sleep 999", 60000⟩) ExecEv.timeoutFire).actions =
      (execInit ⟨true, none, "sleep 999", 60000⟩).actions ++
        [ExecAct.connExec (killCommand "sleep 999") false] :=
  ⟨by decide,
   (C4_timeout_amended ⟨true, none, "sleep 999", 60000⟩
      (execInit ⟨true, none, "sleep 999", 60000⟩) (by decide)).1⟩

/-- Settling the elevation promise changes no other field. -/
theorem elevSettle_fields (o : ElevOutcome) (st : ElevSt) :
    (elevSettle o st).buffer = st.buffer ∧ (elevSettle o st).writes = st.writes ∧
    (elevSettle o st).dataRemoved = st.dataRemoved ∧
    (elevSettle o st).isElevated = st.isElevated ∧
    (elevSettle o st).timersArmed = st.timersArmed := by
  unfold elevSettle
  split <;> exact ⟨rfl, rfl, rfl, rfl, rfl⟩

/-- C5 counterexample: two chunks each ending in a password prompt make the
onData handler of ensureElevated write the secret twice within one attempt —
the buffer is cleared after the first send and there is no sent-once guard,
so the claim that the secret is never re-sent is false of the code. -/
theorem C5_resend_secret_cex :
    (elevRun "hunter2" [ElevEv.shellCbOk, ElevEv.dataEv "Password: ",
        ElevEv.dataEv "Sorry.\nPassword: "]).writes =
      ["su -\n", "hunter2\n", "hunter2\n"] := by
  decide

/-- C5 amended: while the data listener is attached, the secret followed by a
newline is written on every match of the password-prompt pattern against the
accumulated buffer (which is cleared after each send), and is not written on
chunks where the pattern does not match; hence the secret can be re-sent when
the prompt pattern matches again later in the same attempt. -/
theorem C5_secret_send_amended (pw : String) (st : ElevSt) (chunk : String)
    (hd : st.dataRemoved = false) :
    (passwordPromptTest (st.buffer ++ chunk) = true →
      (elevStep pw st (ElevEv.dataEv chunk)).writes = st.writes ++ [pw ++ "\n"] ∧
      (elevStep pw st (ElevEv.dataEv chunk)).buffer = "") ∧
    (passwordPromptTest (st.buffer ++ chunk) = false →
      (elevStep pw st (ElevEv.dataEv chunk)).writes = st.writes) := by
  have he : elevStep pw st (ElevEv.dataEv chunk) = elevOnData pw st chunk := by
    simp [elevStep, hd]
  constructor
  · intro hp
    rw [he]
    unfold elevOnData
    rw [if_pos hp]
    exact ⟨rfl, rfl⟩
  · intro hp
    rw [he]
    unfold elevOnData
    rw [if_neg (by rw [hp]; simp)]
    split
    · exact (elevSettle_fields _ _).2.1
    · split
      · exact (elevSettle_fields _ _).2.1
      · rfl

/-- C5 amended witness: from the fresh attempt state, a prompt chunk adds one
secret write and a neutral chunk adds none. -/
theorem C5_secret_send_amended_witness :
    elevInit.dataRemoved = false ∧
    passwordPromptTest (elevInit.buffer ++ "Password: ") = true ∧
    (elevStep "hunter2" elevInit (ElevEv.dataEv "Password: ")).writes =
      elevInit.writes ++ ["hunter2" ++ "\n"] ∧
    passwordPromptTest (elevInit.buffer ++ "hello") = false ∧
    (elevStep "hunter2" elevInit (ElevEv.dataEv "hello")).writes = elevInit.writes :=
  ⟨rfl, by decide,
   ((C5_secret_send_amended "hunter2" elevInit "Password: " rfl).1 (by decide)).1,
   by decide,
   (C5_secret_send_amended "hunter2" elevInit "hello" rfl).2 (by decide)⟩

/-- No elevation event ever arms a timer: ensureElevated in the source
contains no setTimeout call. -/
theorem elevStep_timers (pw : String) (st : ElevSt) (e : ElevEv) :
    (elevStep pw st e).timersArmed = st.timersArmed := by
  cases e with
  | shellCbErr msg => exact (elevSettle_fields _ _).2.2.2.2
  | shellCbOk => rfl
  | dataEv chunk =>
    simp only [elevStep]
    split
    · rfl
    · unfold elevOnData
      split
      · rfl
      · split
        · exact (elevSettle_fields _ _).2.2.2.2
        · split
          · exact (elevSettle_fields _ _).2.2.2.2
          · rfl
  | closeEv =>
    simp only [elevStep]
    split
    · rfl
    · exact (elevSettle_fields _ _).2.2.2.2

/-- Timers accumulated over a whole event sequence: none are ever added. -/
theorem elevRun_timers (pw : String) (evs : List ElevEv) :
    ∀ st : ElevSt, (evs.foldl (elevStep pw) st).timersArmed = st.timersArmed := by
  induction evs with
  | nil => intro st; rfl
  | cons e rest ih =>
    intro st
    rw [List.foldl_cons, ih, elevStep_timers]

/-- Over data-only events, an attempt whose listener is still attached has a
pending promise: only the success and failure pattern branches settle it, and
they detach the listener. -/
theorem elevRun_data_pending (pw : String) (evs : List ElevEv) :
    ∀ st : ElevSt, (∀ e ∈ evs, ∃ c, e = ElevEv.dataEv c) →
      (st.dataRemoved = false → st.outcome = none) →
      (evs.foldl (elevStep pw) st).dataRemoved = false →
      (evs.foldl (elevStep pw) st).outcome = none := by
  induction evs with
  | nil => intro st _ h; exact h
  | cons e rest ih =>
    intro st hall hinv
    obtain ⟨c, rfl⟩ := hall e (List.mem_cons_self _ _)
    have hrest : ∀ x ∈ rest, ∃ c, x = ElevEv.dataEv c :=
      fun x hx => hall x (List.mem_cons_of_mem _ hx)
    rw [List.foldl_cons]
    apply ih _ hrest
    simp only [elevStep]
    split
    · exact hinv
    · next hd =>
      have hdf : st.dataRemoved = false := by simpa using hd
      unfold elevOnData
      split
      · intro _
        exact hinv hdf
      · split
        · intro hfalse
          simp at hfalse
        · split
          · intro hfalse
            simp at hfalse
          · intro _
            exact hinv hdf

/-- C7 counterexample: ensureElevated arms no safety timeout at all — the
attempt state records no armed timer, and after non-matching output the
attempt is still pending, with no timer that could ever fail it; the claimed
10-second safety timeout does not exist in the code. -/
theorem C7_no_safety_timeout_cex :
    elevInit.timersArmed = [] ∧
    (elevRun "hunter2" [ElevEv.shellCbOk, ElevEv.dataEv "$ "]).outcome = none ∧
    (elevRun "hunter2" [ElevEv.shellCbOk, ElevEv.dataEv "$ "]).timersArmed = [] := by
  decide

/-- C7 amended: an ensureElevated attempt arms no timer whatever events occur,
and over data chunks that never match a terminal pattern (the listener stays
attached) the attempt remains pending forever — it fails only on a shell-open
error, a failure-pattern match, or a channel close before elevation. -/
theorem C7_no_timeout_amended (pw : String) (evs : List ElevEv) :
    (elevRun pw evs).timersArmed = [] ∧
    ((∀ e ∈ evs, ∃ c, e = ElevEv.dataEv c) →
      (elevRun pw evs).dataRemoved = false →
      (elevRun pw evs).outcome = none) := by
  constructor
  · exact (elevRun_timers pw evs elevInit).trans rfl
  · intro hall
    exact elevRun_data_pending pw evs elevInit hall (fun _ => rfl)

/-- C7 amended witness: a single non-matching data chunk leaves the attempt
pending with no timer armed. -/
theorem C7_no_timeout_amended_witness :
    (elevRun "pw" [ElevEv.dataEv "$ "]).timersArmed = [] ∧
    (elevRun "pw" [ElevEv.dataEv "$ "]).dataRemoved = false ∧
    (elevRun "pw" [ElevEv.dataEv "$ "]).outcome = none := by
  have h := C7_no_timeout_amended "pw" [ElevEv.dataEv "$ "]
  refine ⟨h.1, by decide, ?_⟩
  refine h.2 ?_ (by decide)
  intro e he
  rw [List.mem_singleton] at he
  exact ⟨"$ ", he⟩

/-- The synchronous connect body preserves the manager invariant. -/
theorem connect_snd_inv {s : MState} (hi : MInv s) : MInv (connect s).2 := by
  obtain ⟨h1, h2, h3⟩ := hi
  unfold connect
  split
  · exact ⟨h1, h2, h3⟩
  · split
    · exact ⟨h1, h2, h3⟩
    · refine ⟨?_, ?_, ?_⟩
      · intro x hx
        exact Nat.lt_succ_of_lt (h1 x hx)
      · intro x hx
        simp at hx
        show x < s.attempts + 1
        omega
      · intro _ x hx hmem
        simp at hx
        have := h1 x hmem
        omega

/-- ensureConnected preserves the manager invariant. -/
theorem ensureConnected_snd_inv {s : MState} (hi : MInv s) : MInv (ensureConnected s).2 := by
  unfold ensureConnected
  split
  · exact hi
  · exact connect_snd_inv hi

/-- The ready handler preserves the manager invariant. -/
theorem readyStep_inv {s : MState} {c : Nat} (hi : MInv s) (hcn : s.conn = some c) :
    MInv (readyStep c s) := by
  obtain ⟨h1, h2, h3⟩ := hi
  have hc : c < s.attempts := h2 c hcn
  refine ⟨?_, ?_, ?_⟩
  · intro x hx
    by_cases hm : c ∈ s.live
    · rw [show (readyStep c s).live = if c ∈ s.live then s.live else c :: s.live from rfl,
        if_pos hm] at hx
      exact h1 x hx
    · rw [show (readyStep c s).live = if c ∈ s.live then s.live else c :: s.live from rfl,
        if_neg hm] at hx
      rcases List.mem_cons.mp hx with h | h
      · show x < s.attempts
        omega
      · exact h1 x h
  · intro x hx
    exact h2 x hx
  · intro hcon
    exact absurd hcon (by simp [readyStep])

/-- close preserves the manager invariant. -/
theorem close_snd_inv {s : MState} (hi : MInv s) : MInv (close s).2 := by
  obtain ⟨h1, h2, h3⟩ := hi
  unfold close
  split
  · exact ⟨h1, h2, h3⟩
  · split
    · refine ⟨?_, ?_, ?_⟩
      · intro x hx
        exact h1 x (List.mem_of_mem_erase hx)
      · intro x hx
        simp at hx
      · intro _ x hx
        simp at hx
    · refine ⟨?_, ?_, ?_⟩
      · intro x hx
        exact h1 x (List.mem_of_mem_erase hx)
      · intro x hx
        simp at hx
      · intro _ x hx
        simp at hx

/-- Every manager event preserves the manager invariant. -/
theorem stepM_inv {e : MEv} {s s' : MState} (h : stepM e s = some s') (hi : MInv s) :
    MInv s' := by
  obtain ⟨h1, h2, h3⟩ := hi
  cases e with
  | connectEv =>
    simp only [stepM, Option.some.injEq] at h
    subst h
    exact connect_snd_inv ⟨h1, h2, h3⟩
  | ensureConnectedEv =>
    simp only [stepM, Option.some.injEq] at h
    subst h
    exact ensureConnected_snd_inv ⟨h1, h2, h3⟩
  | readyEv c =>
    simp only [stepM] at h
    split at h
    · next hcn =>
      simp only [Option.some.injEq] at h
      subst h
      exact readyStep_inv ⟨h1, h2, h3⟩ hcn
    · exact absurd h (by simp)
  | errorEv c =>
    simp only [stepM] at h
    split at h
    · simp only [Option.some.injEq] at h
      subst h
      refine ⟨?_, ?_, ?_⟩
      · intro x hx
        exact h1 x (List.mem_of_mem_erase hx)
      · intro x hx
        simp at hx
      · intro _ x hx
        simp at hx
    · exact absurd h (by simp)
  | endEv c =>
    simp only [stepM] at h
    split at h
    · simp only [Option.some.injEq] at h
      subst h
      refine ⟨?_, ?_, ?_⟩
      · intro x hx
        exact h1 x (List.mem_of_mem_erase hx)
      · intro x hx
        simp at hx
      · intro _ x hx
        simp at hx
    · exact absurd h (by simp)
  | closeNotifEv c =>
    simp only [stepM] at h
    split at h
    · simp only [Option.some.injEq] at h
      subst h
      refine ⟨?_, ?_, ?_⟩
      · intro x hx
        exact h1 x (List.mem_of_mem_erase hx)
      · intro x hx
        simp at hx
      · intro _ x hx
        simp at hx
    · exact absurd h (by simp)
  | connTimeoutEv c =>
    simp only [stepM] at h
    split at h
    · simp only [Option.some.injEq] at h
      subst h
      refine ⟨?_, ?_, ?_⟩
      · intro x hx
        cases hcn : s.conn with
        | none =>
          rw [hcn] at hx
          exact h1 x hx
        | some c0 =>
          rw [hcn] at hx
          exact h1 x (List.mem_of_mem_erase hx)
      · intro x hx
        simp at hx
      · intro _ x hx
        simp at hx
    · exact absurd h (by simp)
  | elevOkEv sh =>
    simp only [stepM] at h
    split at h
    · simp only [Option.some.injEq] at h
      subst h
      exact ⟨h1, h2, h3⟩
    · exact absurd h (by simp)
  | elevFailEv =>
    simp only [stepM] at h
    split at h
    · simp only [Option.some.injEq] at h
      subst h
      exact ⟨h1, h2, h3⟩
    · exact absurd h (by simp)
  | closeCallEv =>
    simp only [stepM, Option.some.injEq] at h
    subst h
    exact close_snd_inv ⟨h1, h2, h3⟩

/-- Every reachable manager state satisfies the invariant. -/
theorem reachable_inv {pw : Option String} {s : MState} (h : Reachable pw s) : MInv s := by
  induction h with
  | init =>
    refine ⟨?_, ?_, ?_⟩
    · intro x hx
      simp [initM] at hx
    · intro x hx
      simp [initM] at hx
    · intro _ x hx
      simp [initM] at hx
  | step e hr hstep ih => exact stepM_inv hstep ih

/-- While an attempt is in flight, the manager does not look connected: the
pending client's socket is not yet open. -/
theorem inflight_not_connected {s : MState} (hi : MInv s) (hc : s.isConnecting = true) :
    isConnected s = false := by
  cases hcn : s.conn with
  | none => simp [isConnected, hcn]
  | some c =>
    have hnm := hi.2.2 hc c hcn
    simp [isConnected, hcn, hnm]

/-- A connect call during an in-flight attempt returns the existing pending
promise and changes nothing. -/
theorem connect_pending {s : MState} {p : Nat} (hi : MInv s)
    (hc : s.isConnecting = true) (hp : s.connectionPromise = some p) :
    connect s = (ConnectRet.pending p, s) := by
  have hnc := inflight_not_connected hi hc
  unfold connect
  rw [if_neg (by rw [hnc]; simp)]
  rw [hc, hp]

/-- An ensureConnected call during an in-flight attempt behaves like connect. -/
theorem ensureConnected_pending {s : MState} {p : Nat} (hi : MInv s)
    (hc : s.isConnecting = true) (hp : s.connectionPromise = some p) :
    ensureConnected s = (ConnectRet.pending p, s) := by
  have hnc := inflight_not_connected hi hc
  unfold ensureConnected
  rw [if_neg (by rw [hnc]; simp)]
  exact connect_pending hi hc hp

/-- C1: in any reachable state with a connection attempt in flight (the
connecting flag set and a shared promise installed), every sequence of
connect and ensureConnected calls issued before the attempt resolves leaves
the manager unchanged — in particular no further Client is constructed, so
exactly one transport is opened — and every call returns the same pending
connection promise, so all callers observe the same outcome. -/
theorem C1_connect_single_flight (pw : Option String) (s : MState) (p : Nat)
    (hr : Reachable pw s) (hc : s.isConnecting = true)
    (hp : s.connectionPromise = some p) (calls : List MCall) :
    (callRun s calls).2 = s ∧
    (callRun s calls).2.attempts = s.attempts ∧
    (∀ r ∈ (callRun s calls).1, r = ConnectRet.pending p) := by
  have hinv := reachable_inv hr
  have key : ∀ cs : List MCall, (callRun s cs).2 = s ∧
      ∀ r ∈ (callRun s cs).1, r = ConnectRet.pending p := by
    intro cs
    induction cs with
    | nil =>
      refine ⟨rfl, ?_⟩
      intro r hr0
      simp [callRun] at hr0
    | cons c rest ih =>
      have hone : callOne s c = (ConnectRet.pending p, s) := by
        cases c
        · exact connect_pending hinv hc hp
        · exact ensureConnected_pending hinv hc hp
      simp only [callRun, hone]
      refine ⟨ih.1, ?_⟩
      intro r hr0
      rcases List.mem_cons.mp hr0 with h | h
      · exact h
      · exact ih.2 r h
  exact ⟨(key calls).1, by rw [(key calls).1], (key calls).2⟩

/-- C1 witness: in the state reached by one connect call from a fresh
manager, two further calls return the same pending promise and construct no
second client. -/
theorem C1_connect_single_flight_witness :
    (callRun ⟨some 0, true, some 0, none, false, false, 1, [], [], none⟩
        [MCall.connectC, MCall.ensureConnectedC]).2 =
      ⟨some 0, true, some 0, none, false, false, 1, [], [], none⟩ ∧
    (callRun ⟨some 0, true, some 0, none, false, false, 1, [], [], none⟩
        [MCall.connectC, MCall.ensureConnectedC]).1 =
      [ConnectRet.pending 0, ConnectRet.pending 0] := by
  have hr : Reachable none ⟨some 0, true, some 0, none, false, false, 1, [], [], none⟩ :=
    Reachable.step MEv.connectEv Reachable.init (by decide)
  have h := C1_connect_single_flight none
    ⟨some 0, true, some 0, none, false, false, 1, [], [], none⟩ 0 hr rfl rfl
    [MCall.connectC, MCall.ensureConnectedC]
  exact ⟨h.1, by decide⟩

/-- C2 counterexample: a reachable manager state in which the elevated shell
and the elevated flag survive while the Transport Handle is gone — obtained
by connecting with an su password, elevating, and then receiving the
transport end notification, whose handler clears only the handle, the
connecting flag and the promise.  This falsifies the claimed invariant that
elevation state never outlives its parent connection. -/
theorem C2_elevation_outlives_cex :
    ∃ s : MState, Reachable (some "pw") s ∧
      (s.suShell ≠ none ∨ s.isElevated = true) ∧ s.conn = none := by
  refine ⟨⟨none, false, none, some 7, false, true, 1, [(0, true)], [], some "pw"⟩,
    ?_, Or.inr rfl, rfl⟩
  have h1 : Reachable (some "pw")
      ⟨some 0, true, some 0, none, false, false, 1, [], [], some "pw"⟩ :=
    Reachable.step MEv.connectEv Reachable.init (by decide)
  have h2 : Reachable (some "pw")
      ⟨some 0, false, some 0, none, true, false, 1, [(0, true)], [0], some "pw"⟩ :=
    Reachable.step (MEv.readyEv 0) h1 (by decide)
  have h3 : Reachable (some "pw")
      ⟨some 0, false, some 0, some 7, false, true, 1, [(0, true)], [0], some "pw"⟩ :=
    Reachable.step (MEv.elevOkEv 7) h2 (by decide)
  exact Reachable.step (MEv.endEv 0) h3 (by decide)

/-- C2 amended: only close() clears the elevated shell and the elevated flag
together with the Transport Handle; the transport error, end and close
notification handlers clear the handle, the connecting flag and the shared
promise but leave the elevation state untouched, so elevation state can
outlive its parent connection. -/
theorem C2_clearing_amended (s : MState) (c : Nat) :
    (s.conn ≠ none → s.suShell ≠ none →
      (close s).2.conn = none ∧ (close s).2.suShell = none ∧
      (close s).2.isElevated = false) ∧
    (∀ s', stepM (MEv.errorEv c) s = some s' →
      s'.conn = none ∧ s'.suShell = s.suShell ∧ s'.isElevated = s.isElevated) ∧
    (∀ s', stepM (MEv.endEv c) s = some s' →
      s'.conn = none ∧ s'.suShell = s.suShell ∧ s'.isElevated = s.isElevated) ∧
    (∀ s', stepM (MEv.closeNotifEv c) s = some s' →
      s'.conn = none ∧ s'.suShell = s.suShell ∧ s'.isElevated = s.isElevated) := by
  refine ⟨?_, ?_, ?_, ?_⟩
  · intro hne hsh
    unfold close
    cases hcn : s.conn with
    | none => exact absurd hcn hne
    | some c0 =>
      cases hsh2 : s.suShell with
      | none => exact absurd hsh2 hsh
      | some sh => exact ⟨rfl, rfl, rfl⟩
  · intro s' h
    simp only [stepM] at h
    split at h
    · simp only [Option.some.injEq] at h
      subst h
      exact ⟨rfl, rfl, rfl⟩
    · exact absurd h (by simp)
  · intro s' h
    simp only [stepM] at h
    split at h
    · simp only [Option.some.injEq] at h
      subst h
      exact ⟨rfl, rfl, rfl⟩
    · exact absurd h (by simp)
  · intro s' h
    simp only [stepM] at h
    split at h
    · simp only [Option.some.injEq] at h
      subst h
      exact ⟨rfl, rfl, rfl⟩
    · exact absurd h (by simp)

/-- C2 amended witness: on a state with a handle and an elevated shell, close
clears the elevation state, while the transport end notification yields a
state that keeps the elevated shell. -/
theorem C2_clearing_amended_witness :
    (close ⟨some 0, false, none, some 3, false, true, 1, [], [0], none⟩).2.suShell = none ∧
    (close ⟨some 0, false, none, some 3, false, true, 1, [], [0], none⟩).2.isElevated = false ∧
    stepM (MEv.endEv 0) ⟨some 0, false, none, some 3, false, true, 1, [], [0], none⟩ =
      some ⟨none, false, none, some 3, false, true, 1, [], [], none⟩ ∧
    (⟨none, false, none, some 3, false, true, 1, [], [], none⟩ : MState).suShell =
      (⟨some 0, false, none, some 3, false, true, 1, [], [0], none⟩ : MState).suShell := by
  have h := C2_clearing_amended ⟨some 0, false, none, some 3, false, true, 1, [], [0], none⟩ 0
  refine ⟨(h.1 (by decide) (by decide)).2.1, (h.1 (by decide) (by decide)).2.2, by decide, ?_⟩
  exact (h.2.2.1 ⟨none, false, none, some 3, false, true, 1, [], [], none⟩ (by decide)).2.1

/-- C8: when the ready notification fires with an elevation secret configured
and no elevation yet, the connection promise is resolved successfully within
that very step while the freshly started elevation attempt is still in flight
(the background step does not block resolution), and an elevation failure
changes no promise outcome at all — it only clears the in-flight elevation
promise, the error being swallowed — so the connection stays successfully
resolved even if the elevation attempt later fails. -/
theorem C8_background_elevation (s : MState) (c : Nat)
    (hpw : s.suPassword.isSome = true) (hel : s.isElevated = false)
    (hsp : s.suPromiseActive = false) (hnew : s.outcomes.lookup c = none) :
    (readyStep c s).outcomes.lookup c = some true ∧
    (readyStep c s).suPromiseActive = true ∧
    (∀ t t' : MState, stepM MEv.elevFailEv t = some t' →
      t'.outcomes = t.outcomes ∧ t'.suPromiseActive = false) ∧
    (∀ t' : MState, stepM MEv.elevFailEv (readyStep c s) = some t' →
      t'.outcomes.lookup c = some true) := by
  have hout : (readyStep c s).outcomes = (c, true) :: s.outcomes := by
    show settleProm c true s.outcomes = _
    unfold settleProm
    rw [hnew]
  have hlook : (readyStep c s).outcomes.lookup c = some true := by
    rw [hout]
    simp [List.lookup]
  have hsp2 : (readyStep c s).suPromiseActive = true := by
    show (if s.suPassword.isSome && !(s.isElevated && s.suShell.isSome)
        && !s.suPromiseActive then true else s.suPromiseActive) = true
    rw [hpw, hel, hsp]
    simp
  have hfail : ∀ t t' : MState, stepM MEv.elevFailEv t = some t' →
      t'.outcomes = t.outcomes ∧ t'.suPromiseActive = false := by
    intro t t' h
    simp only [stepM] at h
    split at h
    · simp only [Option.some.injEq] at h
      subst h
      exact ⟨rfl, rfl⟩
    · exact absurd h (by simp)
  refine ⟨hlook, hsp2, hfail, ?_⟩
  intro t' h
  rw [(hfail _ _ h).1, hlook]

/-- C8 witness: a ready notification on a connecting manager with an su
password resolves promise 0 successfully and leaves the elevation attempt in
flight, and after the elevation failure event the promise outcome is still a
successful resolution. -/
theorem C8_background_elevation_witness :
    (readyStep 0 ⟨some 0, true, some 0, none, false, false, 1, [], [],
        some "pw"⟩).outcomes.lookup 0 = some true ∧
    (readyStep 0 ⟨some 0, true, some 0, none, false, false, 1, [], [],
        some "pw"⟩).suPromiseActive = true ∧
    (⟨some 0, false, some 0, none, false, false, 1, [(0, true)], [0],
        some "pw"⟩ : MState).outcomes.lookup 0 = some true := by
  have h := C8_background_elevation
    ⟨some 0, true, some 0, none, false, false, 1, [], [], some "pw"⟩ 0 rfl rfl rfl rfl
  exact ⟨h.1, h.2.1,
    h.2.2.2 ⟨some 0, false, some 0, none, false, false, 1, [(0, true)], [0], some "pw"⟩
      (by decide)⟩

/-- C9: close() is idempotent — with no Transport Handle it performs no end
call and leaves the state unchanged (and, being a total function, it is never
an error); after any close() the handle is cleared, isConnected is false and
getConnection fails with the not-established condition; and when an elevated
shell exists it is ended and the elevation state cleared before the Transport
Handle is ended and cleared (the end calls are recorded in that order). -/
theorem C9_close_idempotent (s : MState) :
    (s.conn = none → close s = ([], s)) ∧
    ((close s).2.conn = none ∧ isConnected (close s).2 = false ∧
      getConnection (close s).2 =
        Except.error ⟨ErrorCode.internalError, "SSH connection not established"⟩) ∧
    (s.conn ≠ none → s.suShell ≠ none →
      (close s).1 = [CloseAct.endShell, CloseAct.endConn] ∧
      (close s).2.suShell = none ∧ (close s).2.isElevated = false) := by
  unfold close
  cases hcn : s.conn with
  | none =>
    refine ⟨fun _ => rfl, ⟨hcn, ?_, ?_⟩, fun hne _ => absurd rfl hne⟩
    · simp [isConnected, hcn]
    · simp [getConnection, hcn]
  | some c =>
    cases hsh : s.suShell with
    | none =>
      refine ⟨fun h => absurd h (by simp), ⟨rfl, ?_, ?_⟩, fun _ hne => absurd rfl hne⟩
      · simp [isConnected]
      · simp [getConnection]
    | some sh =>
      refine ⟨fun h => absurd h (by simp), ⟨rfl, ?_, ?_⟩, fun _ _ => ⟨rfl, rfl, rfl⟩⟩
      · simp [isConnected]
      · simp [getConnection]

/-- C9 witness: close on a manager with a handle and an elevated shell emits
the shell end before the transport end and clears the elevation state, and a
second close on the result is a no-op; getConnection then fails. -/
theorem C9_close_idempotent_witness :
    (close ⟨some 0, false, none, some 3, false, true, 1, [], [0], none⟩).1 =
      [CloseAct.endShell, CloseAct.endConn] ∧
    (close ⟨some 0, false, none, some 3, false, true, 1, [], [0], none⟩).2.suShell = none ∧
    isConnected (close ⟨some 0, false, none, some 3, false, true, 1, [], [0], none⟩).2 = false ∧
    getConnection (close ⟨some 0, false, none, some 3, false, true, 1, [], [0], none⟩).2 =
      Except.error ⟨ErrorCode.internalError, "SSH connection not established"⟩ ∧
    close (⟨none, false, none, none, false, false, 1, [], [], none⟩ : MState) =
      ([], ⟨none, false, none, none, false, false, 1, [], [], none⟩) := by
  have h := C9_close_idempotent ⟨some 0, false, none, some 3, false, true, 1, [], [0], none⟩
  have h2 := C9_close_idempotent (⟨none, false, none, none, false, false, 1, [], [], none⟩ : MState)
  exact ⟨(h.2.2 (by decide) (by decide)).1, (h.2.2 (by decide) (by decide)).2.1,
    h.2.1.2.1, h.2.1.2.2, h2.1 rfl⟩

end SshMcp
